import Mathlib

/-!
Shallow embedding of `ehtplot/color/uniformize.py`.

Numbers are modelled as exact rationals (`ℚ`).  The external collaborators
are abstract function parameters:

* `cspace : ℚ → ℚ → ℚ → ℚ × ℚ × ℚ` models
  `cspace_convert([r, g, b], "sRGB1", "CAM02-UCS")` (the perceptual oracle);
  only its first coordinate (lightness) is ever read.
* `cspaceInv : ℚ × ℚ × ℚ → ℚ × ℚ × ℚ` models
  `cspace_convert(Jabp, "CAM02-UCS", "sRGB1")`.
* `sq`, `cosf`, `sinf : ℚ → ℚ` model `math.sqrt`, `math.cos`, `math.sin`
  (the domain guard of `math.sqrt` is modelled explicitly in `mathSqrt`).
* `bisect : (ℚ → ℚ) → ℚ → ℚ → Option ℚ` models `scipy.optimize.bisect`;
  `none` models the `ValueError` it raises when it cannot bracket a root.
* `minimize : (ℚ → ℚ) → ℚ → ℚ` models
  `scipy.optimize.minimize(f, x0, method='Nelder-Mead').x[0]`.

A matplotlib colormap callable `cm` returns an RGBA quadruple.  Python
exceptions are modelled with `Except`; the `save=...` file-output branch
(`np.savetxt`) is out of scope and only the in-memory result is modelled.
The diagnostic `print` in `symmetrize` is modelled as an explicit list of
emitted warnings.
-/

namespace Ehtplot

/-- Decidable equality of `Except` results, for evaluating the embedding on
concrete inputs. -/
instance {ε α : Type _} [DecidableEq ε] [DecidableEq α] : DecidableEq (Except ε α) :=
  fun x y =>
    match x, y with
    | Except.ok a, Except.ok b =>
        if h : a = b then isTrue (congrArg Except.ok h)
        else isFalse (fun he => h (Except.ok.inj he))
    | Except.ok _, Except.error _ => isFalse (fun he => Except.noConfusion he)
    | Except.error _, Except.ok _ => isFalse (fun he => Except.noConfusion he)
    | Except.error a, Except.error b =>
        if h : a = b then isTrue (congrArg Except.error h)
        else isFalse (fun he => h (Except.error.inj he))

/-- An RGB triple, as produced by `convert` after `np.clip(sRGB, 0, 1)`. -/
structure RGB where
  r : ℚ
  g : ℚ
  b : ℚ
deriving DecidableEq

/-- An RGBA quadruple, as returned by a matplotlib colormap callable. -/
structure RGBA where
  r : ℚ
  g : ℚ
  b : ℚ
  a : ℚ
deriving DecidableEq

/-- Python exceptions that the arithmetic in `convert` can raise. The spec
groups both under its `DomainError` taxonomy entry. -/
inductive DomainError where
  /-- `ValueError: math domain error`, from `math.sqrt` of a negative. -/
  | valueError
  /-- `ZeroDivisionError: float division by zero`. -/
  | zeroDivision
deriving DecidableEq

/-- `math.sqrt`: raises `ValueError` on a negative argument, otherwise
delegates to the abstract square-root oracle `sq`. -/
def mathSqrt (sq : ℚ → ℚ) (x : ℚ) : Except DomainError ℚ :=
  if x < 0 then Except.error DomainError.valueError else Except.ok (sq x)

/-- Python float division: raises `ZeroDivisionError` on a zero divisor. -/
def pyDiv (x y : ℚ) : Except DomainError ℚ :=
  if y = 0 then Except.error DomainError.zeroDivision else Except.ok (x / y)

/-- `np.clip(x, 0, 1)` on one channel. -/
def clip01 (x : ℚ) : ℚ := min (max x 0) 1

/-- `convert(i, N, darkest=0.0, lightest=100.0, saturation=None, hue=None)`
from `uniformize.py` lines 33-46:

    f  = i / (N - 1.0)
    s  = sqrt(0.5) if saturation is None else saturation(f)
    hp = 0.0       if hue        is None else hue(f)
    Jp = darkest + f * (lightest - darkest)
    Cp = Jp * s / sqrt(1.0 - s*s)
    Jabp = [Jp, Cp * cos(hp), Cp * sin(hp)]
    sRGB = cspace_convert(Jabp, "CAM02-UCS", "sRGB1")
    return np.clip(sRGB, 0, 1)
-/
def convert (cspaceInv : ℚ × ℚ × ℚ → ℚ × ℚ × ℚ) (sq cosf sinf : ℚ → ℚ)
    (i N : ℕ) (darkest lightest : ℚ)
    (saturation hue : Option (ℚ → ℚ)) : Except DomainError RGB := do
  let f ← pyDiv (i : ℚ) ((N : ℚ) - 1)
  let s ← match saturation with
    | none => mathSqrt sq (1/2)
    | some sat => Except.ok (sat f)
  let hp : ℚ := match hue with
    | none => 0
    | some h => h f
  let Jp : ℚ := darkest + f * (lightest - darkest)
  let root ← mathSqrt sq (1 - s * s)
  let Cp ← pyDiv (Jp * s) root
  let sRGB := cspaceInv (Jp, Cp * cosf hp, Cp * sinf hp)
  Except.ok ⟨clip01 sRGB.1, clip01 sRGB.2.1, clip01 sRGB.2.2⟩

/-- `colormap(N=256, **kwargs)`:
`ListedColormap([convert(i, N, **kwargs) for i in range(N)])`. -/
def colormap (cspaceInv : ℚ × ℚ × ℚ → ℚ × ℚ × ℚ) (sq cosf sinf : ℚ → ℚ)
    (N : ℕ) (darkest lightest : ℚ)
    (saturation hue : Option (ℚ → ℚ)) : Except DomainError (List RGB) :=
  (List.range N).mapM
    (fun i => convert cspaceInv sq cosf sinf i N darkest lightest saturation hue)

/-- `lightness(r, g, b, a=1.0)`:
`cspace_convert([r, g, b], "sRGB1", "CAM02-UCS")[0]`.  The alpha argument
is accepted (default `1.0` in the source) but never used. -/
def lightness (cspace : ℚ → ℚ → ℚ → ℚ × ℚ × ℚ) (r g b a : ℚ) : ℚ :=
  (cspace r g b).1

/-- The local helper `v2l(v) = lightness(*cm(v))` shared by `linearize` and
`symmetrize` (in `symmetrize` it additionally unwraps a length-1 ndarray,
which is the identity on scalar inputs). -/
def v2l (cspace : ℚ → ℚ → ℚ → ℚ × ℚ × ℚ) (cm : ℚ → RGBA) (v : ℚ) : ℚ :=
  lightness cspace (cm v).r (cm v).g (cm v).b (cm v).a

/-- `np.linspace(a, b, N)` sampled at index `i`: `a + (b - a) / (N - 1) * i`.
(For `N = 1` numpy returns the constant `a`; rational division by zero makes
the formula agree there too.) -/
def linspace (a b : ℚ) (N i : ℕ) : ℚ :=
  a + (b - a) / ((N : ℚ) - 1) * i

/-- The target-lightness sequence of `linearize` (lines 63-64):
`L = np.linspace(v2l(vmin) if lmin is None else lmin, v2l(vmax) if lmax is None else lmax, N)`. -/
def linearizeL (cspace : ℚ → ℚ → ℚ → ℚ × ℚ × ℚ) (cm : ℚ → RGBA)
    (N : ℕ) (lmin? lmax? : Option ℚ) (vmin vmax : ℚ) : List ℚ :=
  (List.range N).map fun i =>
    linspace (lmin?.getD (v2l cspace cm vmin)) (lmax?.getD (v2l cspace cm vmax)) N i

/-- `linearize(cm, N=256, lmin=None, lmax=None, vmin=0.0, vmax=1.0)`:
`carr = [cm(l2v(l)) for l in L]` where `l2v(l) = bisect(lambda v: v2l(v) - l, vmin, vmax)`.
A root-bracketing failure is fatal (`none`), matching the uncaught
`ValueError` of `scipy.optimize.bisect`. -/
def linearize (cspace : ℚ → ℚ → ℚ → ℚ × ℚ × ℚ) (cm : ℚ → RGBA)
    (bisect : (ℚ → ℚ) → ℚ → ℚ → Option ℚ)
    (N : ℕ) (lmin? lmax? : Option ℚ) (vmin vmax : ℚ) : Option (List RGBA) :=
  (linearizeL cspace cm N lmin? lmax? vmin vmax).mapM fun l =>
    (bisect (fun v => v2l cspace cm v - l) vmin vmax).map cm

/-- The only exception `symmetrize` itself raises:
`ValueError('colormap does not seem to diverge')`. -/
inductive SymErr where
  | divergence
deriving DecidableEq

/-- Which half of `symmetrize` a diagnostic warning came from. -/
inductive Half where
  | left
  | right
deriving DecidableEq

/-- One diagnostic `print('Warning: unable to solve for value in ...', l)`. -/
structure Warn where
  half : Half
  l : ℚ
deriving DecidableEq

/-- Line 81: `if lmin is None: lmin = v2l(vmin)`. -/
def effLmin (cspace : ℚ → ℚ → ℚ → ℚ × ℚ × ℚ) (cm : ℚ → RGBA)
    (lmin? : Option ℚ) (vmin : ℚ) : ℚ :=
  lmin?.getD (v2l cspace cm vmin)

/-- Line 82: `if lmid is None: lmid = v2l(0.5 if vmid is None else vmid)`. -/
def effLmid0 (cspace : ℚ → ℚ → ℚ → ℚ × ℚ × ℚ) (cm : ℚ → RGBA)
    (lmid? : Option ℚ) (vmid? : Option ℚ) : ℚ :=
  lmid?.getD (v2l cspace cm (vmid?.getD (1/2)))

/-- Line 83: `if lmax is None: lmax = v2l(vmax)`. -/
def effLmax (cspace : ℚ → ℚ → ℚ → ℚ × ℚ × ℚ) (cm : ℚ → RGBA)
    (lmax? : Option ℚ) (vmax : ℚ) : ℚ :=
  lmax?.getD (v2l cspace cm vmax)

/-- Lines 88-91: when `vmid` is not supplied, it is found by Nelder-Mead,
minimizing `v2l` for a v-shape (`lmax > lmid`) and `v2ml = -v2l` for a
^-shape, starting from `0.5`. -/
def effVmid (cspace : ℚ → ℚ → ℚ → ℚ × ℚ × ℚ) (cm : ℚ → RGBA)
    (minimize : (ℚ → ℚ) → ℚ → ℚ)
    (lmid? lmax? : Option ℚ) (vmid? : Option ℚ) (vmax : ℚ) : ℚ :=
  match vmid? with
  | some v => v
  | none =>
      minimize
        (if effLmax cspace cm lmax? vmax > effLmid0 cspace cm lmid? vmid?
         then fun v => v2l cspace cm v
         else fun v => -(v2l cspace cm v))
        (1/2)

/-- Line 92: when `vmid` was not supplied, `lmid = v2l(vmid)` at the found
extremum; otherwise `lmid` keeps its value from line 82 (or the caller). -/
def effLmid (cspace : ℚ → ℚ → ℚ → ℚ × ℚ × ℚ) (cm : ℚ → RGBA)
    (minimize : (ℚ → ℚ) → ℚ → ℚ)
    (lmid? lmax? : Option ℚ) (vmid? : Option ℚ) (vmax : ℚ) : ℚ :=
  match vmid? with
  | some _ => effLmid0 cspace cm lmid? vmid?
  | none => v2l cspace cm (effVmid cspace cm minimize lmid? lmax? vmid? vmax)

/-- Lines 94-99, the target-lightness curve of `symmetrize`:

    if lmax > lmid: # v-shape
        b = min(lmin, lmax)
        L = np.absolute(np.linspace(-b, b, N))
    else:           # ^-shape
        b = lmid - max(lmin, lmax)
        L = lmid - np.absolute(np.linspace(-b, b, N))
-/
def symTargetL (lmin lmid lmax : ℚ) (N i : ℕ) : ℚ :=
  if lmax > lmid then
    |linspace (-(min lmin lmax)) (min lmin lmax) N i|
  else
    lmid - |linspace (-(lmid - max lmin lmax)) (lmid - max lmin lmax) N i|

/-- Lines 101-106, `l2vL(l)`: bisection over `[vmin, vmid]`; on failure,
print a warning and fall back to `0.5 if l > 75 else 0.0`.  Returns the
solved (or fallback) value together with the warning, if any. -/
def l2vL (bisect : (ℚ → ℚ) → ℚ → ℚ → Option ℚ) (f : ℚ → ℚ)
    (vmin vmid l : ℚ) : ℚ × Option Warn :=
  match bisect (fun v => f v - l) vmin vmid with
  | some v => (v, none)
  | none => ((if l > 75 then 1/2 else 0), some ⟨Half.left, l⟩)

/-- Lines 107-112, `l2vR(l)`: bisection over `[vmid, vmax]`; on failure,
print a warning and fall back to `0.5 if l > 75 else 1.0`. -/
def l2vR (bisect : (ℚ → ℚ) → ℚ → ℚ → Option ℚ) (f : ℚ → ℚ)
    (vmid vmax l : ℚ) : ℚ × Option Warn :=
  match bisect (fun v => f v - l) vmid vmax with
  | some v => (v, none)
  | none => ((if l > 75 then 1/2 else 1), some ⟨Half.right, l⟩)

/-- Lines 114-115, the two halves of the comprehension
`carr = [cm(l2vL(l)) for l in L[:N//2]] + [cm(l2vR(l)) for l in L[N//2:]]`,
before applying `cm`: each entry is the solved (or fallback) value paired
with its warning.  `L[:N//2]` are indices `0..N/2-1` and `L[N//2:]` are
indices `N/2..N-1`. -/
def symSamples (cspace : ℚ → ℚ → ℚ → ℚ × ℚ × ℚ) (cm : ℚ → RGBA)
    (bisect : (ℚ → ℚ) → ℚ → ℚ → Option ℚ) (minimize : (ℚ → ℚ) → ℚ → ℚ)
    (N : ℕ) (lmin? lmid? lmax? : Option ℚ)
    (vmin : ℚ) (vmid? : Option ℚ) (vmax : ℚ) : List (ℚ × Option Warn) :=
  ((List.range (N / 2)).map fun i =>
      l2vL bisect (v2l cspace cm) vmin
        (effVmid cspace cm minimize lmid? lmax? vmid? vmax)
        (symTargetL (effLmin cspace cm lmin? vmin)
          (effLmid cspace cm minimize lmid? lmax? vmid? vmax)
          (effLmax cspace cm lmax? vmax) N i)) ++
  ((List.range (N - N / 2)).map fun j =>
      l2vR bisect (v2l cspace cm)
        (effVmid cspace cm minimize lmid? lmax? vmid? vmax) vmax
        (symTargetL (effLmin cspace cm lmin? vmin)
          (effLmid cspace cm minimize lmid? lmax? vmid? vmax)
          (effLmax cspace cm lmax? vmax) N (N / 2 + j)))

/-- The RGBA samples of `symmetrize`'s result (`carr`). -/
def symCarr (cspace : ℚ → ℚ → ℚ → ℚ × ℚ × ℚ) (cm : ℚ → RGBA)
    (bisect : (ℚ → ℚ) → ℚ → ℚ → Option ℚ) (minimize : (ℚ → ℚ) → ℚ → ℚ)
    (N : ℕ) (lmin? lmid? lmax? : Option ℚ)
    (vmin : ℚ) (vmid? : Option ℚ) (vmax : ℚ) : List RGBA :=
  (symSamples cspace cm bisect minimize N lmin? lmid? lmax? vmin vmid? vmax).map
    fun p => cm p.1

/-- The diagnostic warnings `symmetrize` prints, in order. -/
def symWarns (cspace : ℚ → ℚ → ℚ → ℚ × ℚ × ℚ) (cm : ℚ → RGBA)
    (bisect : (ℚ → ℚ) → ℚ → ℚ → Option ℚ) (minimize : (ℚ → ℚ) → ℚ → ℚ)
    (N : ℕ) (lmin? lmid? lmax? : Option ℚ)
    (vmin : ℚ) (vmid? : Option ℚ) (vmax : ℚ) : List Warn :=
  (symSamples cspace cm bisect minimize N lmin? lmid? lmax? vmin vmid? vmax).filterMap
    fun p => p.2

/-- `symmetrize(cm, N=256, lmin=None, lmid=None, lmax=None, vmin=0.0,
vmid=None, vmax=1.0)`, lines 72-119.  Line 85-86:

    if (lmax - lmid) * (lmid - lmin) >= 0.0:
        raise ValueError('colormap does not seem to diverge')

and otherwise the colormap samples together with the printed warnings. -/
def symmetrize (cspace : ℚ → ℚ → ℚ → ℚ × ℚ × ℚ) (cm : ℚ → RGBA)
    (bisect : (ℚ → ℚ) → ℚ → ℚ → Option ℚ) (minimize : (ℚ → ℚ) → ℚ → ℚ)
    (N : ℕ) (lmin? lmid? lmax? : Option ℚ)
    (vmin : ℚ) (vmid? : Option ℚ) (vmax : ℚ) :
    Except SymErr (List RGBA × List Warn) :=
  if (effLmax cspace cm lmax? vmax - effLmid0 cspace cm lmid? vmid?) *
       (effLmid0 cspace cm lmid? vmid? - effLmin cspace cm lmin? vmin) ≥ 0 then
    Except.error SymErr.divergence
  else
    Except.ok
      (symCarr cspace cm bisect minimize N lmin? lmid? lmax? vmin vmid? vmax,
       symWarns cspace cm bisect minimize N lmin? lmid? lmax? vmin vmid? vmax)

/-! ### Helper lemmas -/

/-- `getD` of a `map` over `range` evaluates the mapped function. -/
theorem rangeMap_getD {α : Type _} (f : ℕ → α) (N i : ℕ) (hi : i < N) (d : α) :
    (((List.range N).map f).getD i d) = f i := by
  simp [List.getD_eq_getElem?_getD, List.getElem?_map, List.getElem?_range hi]

/-- Reversal identity for `linspace`: for `2 ≤ N` and `i < N`,
`linspace a b N (N-1-i) = a + b - linspace a b N i`. -/
theorem linspace_rev (a b : ℚ) (N i : ℕ) (hN : 2 ≤ N) (hi : i < N) :
    linspace a b N (N - 1 - i) = a + b - linspace a b N i := by
  unfold linspace
  have h1 : ((N - 1 - i : ℕ) : ℚ) = (N : ℚ) - 1 - i := by
    have : ((N - 1 - i : ℕ) : ℚ) = ((N - 1 : ℕ) : ℚ) - (i : ℚ) := by
      rw [Nat.cast_sub (by omega)]
    rw [this, Nat.cast_sub (by omega)]
    norm_num
  have hd : ((N : ℚ) - 1) ≠ 0 := by
    have : (2 : ℚ) ≤ (N : ℚ) := by exact_mod_cast hN
    intro h; nlinarith
  rw [h1]
  field_simp
  ring

/-- The target-lightness curve of `symmetrize` is symmetric about the
center in both branches. -/
theorem symTargetL_symm (lmin lmid lmax : ℚ) (N i : ℕ) (hi : i < N) :
    symTargetL lmin lmid lmax N (N - 1 - i) = symTargetL lmin lmid lmax N i := by
  rcases Nat.lt_or_ge N 2 with h2 | h2
  · have hN1 : N = 1 := by omega
    subst hN1
    have hi0 : i = 0 := by omega
    subst hi0
    rfl
  · have habs : ∀ c x : ℚ, |(-c) + c - x| = |x| := by
      intro c x
      have : (-c) + c - x = -x := by ring
      rw [this, abs_neg]
    unfold symTargetL
    split
    · rw [linspace_rev _ _ N i h2 hi, habs]
    · rw [linspace_rev _ _ N i h2 hi, habs]

/-! ### Claim theorems -/

/-- C9: the lightness probe ignores its alpha argument: for every RGB triple
and any two alpha values, `lightness(r, g, b, a1) = lightness(r, g, b, a2)`;
the result depends only on the three color channels. -/
theorem lightness_ignores_alpha (cspace : ℚ → ℚ → ℚ → ℚ × ℚ × ℚ)
    (r g b a1 a2 : ℚ) :
    lightness cspace r g b a1 = lightness cspace r g b a2 := rfl

/-- C1: `symmetrize` raises the DivergenceError
(`ValueError('colormap does not seem to diverge')`) exactly when the
effective endpoint lightnesses (after defaulting `lmin = v2l(vmin)`,
`lmid = v2l(vmid or 0.5)`, `lmax = v2l(vmax)`) satisfy
`(lmax - lmid) * (lmid - lmin) ≥ 0`, producing no partial result; when the
product is `< 0` it instead returns the full colormap with its warnings. -/
theorem symmetrize_divergence_iff (cspace : ℚ → ℚ → ℚ → ℚ × ℚ × ℚ)
    (cm : ℚ → RGBA) (bisect : (ℚ → ℚ) → ℚ → ℚ → Option ℚ)
    (minimize : (ℚ → ℚ) → ℚ → ℚ) (N : ℕ) (lmin? lmid? lmax? : Option ℚ)
    (vmin : ℚ) (vmid? : Option ℚ) (vmax : ℚ) :
    (symmetrize cspace cm bisect minimize N lmin? lmid? lmax? vmin vmid? vmax =
        Except.error SymErr.divergence ↔
      (effLmax cspace cm lmax? vmax - effLmid0 cspace cm lmid? vmid?) *
          (effLmid0 cspace cm lmid? vmid? - effLmin cspace cm lmin? vmin) ≥ 0) ∧
    ((effLmax cspace cm lmax? vmax - effLmid0 cspace cm lmid? vmid?) *
          (effLmid0 cspace cm lmid? vmid? - effLmin cspace cm lmin? vmin) < 0 →
      symmetrize cspace cm bisect minimize N lmin? lmid? lmax? vmin vmid? vmax =
        Except.ok
          (symCarr cspace cm bisect minimize N lmin? lmid? lmax? vmin vmid? vmax,
           symWarns cspace cm bisect minimize N lmin? lmid? lmax? vmin vmid? vmax)) := by
  unfold symmetrize
  by_cases h :
      (effLmax cspace cm lmax? vmax - effLmid0 cspace cm lmid? vmid?) *
        (effLmid0 cspace cm lmid? vmid? - effLmin cspace cm lmin? vmin) ≥ 0
  · rw [if_pos h]
    exact ⟨⟨fun _ => h, fun _ => rfl⟩, fun hlt => absurd h (not_le.mpr hlt)⟩
  · rw [if_neg h]
    exact ⟨⟨fun he => Except.noConfusion he, fun hge => absurd hge h⟩, fun _ => rfl⟩

/-- C2 counterexample: the claim says the v-shaped target sequence has
minimum value 0 at the center index.  With `lmin = lmax = 3`, `lmid = 0`
(so `lmax > lmid`: the v-shaped branch, `b = min(lmin, lmax) = 3`) and the
even sample count `N = 4`, the target sequence is `(3, 1, 1, 3)`: its two
central entries are `1`, and no entry is `0`. -/
theorem symTargetL_vshape_counterexample :
    (0 : ℚ) < 3 ∧
    symTargetL 3 0 3 4 0 = 3 ∧ symTargetL 3 0 3 4 1 = 1 ∧
    symTargetL 3 0 3 4 2 = 1 ∧ symTargetL 3 0 3 4 3 = 3 := by
  with_unfolding_all decide

/-- C2 amended: in the v-shaped branch (`lmax > lmid`) the target sequence
is `|linspace(-b, b, N)|` with `b = min(lmin, lmax)`; it does not depend on
`lmid` (beyond `lmax > lmid`), it is symmetric about the center, its center
entry is 0 when `N` is odd, and when `N` is even its two central entries
equal `|b| / (N - 1)` (so they are 0 only when `b = 0`). -/
theorem symTargetL_vshape_amended (lmin lmid lmid2 lmax : ℚ) (N i : ℕ)
    (hv : lmax > lmid) (hv2 : lmax > lmid2) (hi : i < N) (hN : 2 ≤ N) :
    symTargetL lmin lmid lmax N i =
        |linspace (-(min lmin lmax)) (min lmin lmax) N i| ∧
    symTargetL lmin lmid2 lmax N i = symTargetL lmin lmid lmax N i ∧
    symTargetL lmin lmid lmax N (N - 1 - i) = symTargetL lmin lmid lmax N i ∧
    (N % 2 = 1 → symTargetL lmin lmid lmax N ((N - 1) / 2) = 0) ∧
    (N % 2 = 0 → symTargetL lmin lmid lmax N (N / 2) =
        |min lmin lmax| / ((N : ℚ) - 1)) := by
  have hd : ((N : ℚ) - 1) ≠ 0 := by
    have : (2 : ℚ) ≤ (N : ℚ) := by exact_mod_cast hN
    intro h; nlinarith
  refine ⟨by rw [symTargetL, if_pos hv], by rw [symTargetL, if_pos hv2, symTargetL, if_pos hv],
    symTargetL_symm lmin lmid lmax N i hi, ?_, ?_⟩
  · intro hodd
    rw [symTargetL, if_pos hv]
    have hc : (((N - 1) / 2 : ℕ) : ℚ) = ((N : ℚ) - 1) / 2 := by
      have h2 : ((N - 1) / 2 : ℕ) * 2 = N - 1 := Nat.div_mul_cancel (by omega)
      have : (((N - 1) / 2 : ℕ) : ℚ) * 2 = ((N - 1 : ℕ) : ℚ) := by exact_mod_cast h2
      rw [Nat.cast_sub (by omega)] at this
      push_cast at this ⊢
      linarith
    rw [linspace, hc, abs_eq_zero]
    field_simp
  · intro heven
    rw [symTargetL, if_pos hv]
    have hc : ((N / 2 : ℕ) : ℚ) = (N : ℚ) / 2 := by
      have h2 : (N / 2 : ℕ) * 2 = N := Nat.div_mul_cancel (by omega)
      have : ((N / 2 : ℕ) : ℚ) * 2 = ((N : ℕ) : ℚ) := by exact_mod_cast h2
      linarith
    have hval : linspace (-(min lmin lmax)) (min lmin lmax) N (N / 2) =
        min lmin lmax / ((N : ℚ) - 1) := by
      rw [linspace, hc]
      field_simp
      ring
    rw [hval, abs_div]
    congr 1
    rw [abs_of_pos]
    have : (2 : ℚ) ≤ (N : ℚ) := by exact_mod_cast hN
    linarith

/-- C2 amended, witnessed at `lmin = 3`, `lmid = 0`, `lmid2 = 1`,
`lmax = 3`, `N = 4`, `i = 1`. -/
theorem symTargetL_vshape_amended_witness :
    symTargetL 3 0 3 4 1 = |linspace (-(min 3 3)) (min 3 3) 4 1| ∧
    symTargetL 3 1 3 4 1 = symTargetL 3 0 3 4 1 ∧
    symTargetL 3 0 3 4 (4 - 1 - 1) = symTargetL 3 0 3 4 1 ∧
    (4 % 2 = 1 → symTargetL 3 0 3 4 ((4 - 1) / 2) = 0) ∧
    (4 % 2 = 0 → symTargetL 3 0 3 4 (4 / 2) = |min 3 3| / ((4 : ℚ) - 1)) :=
  symTargetL_vshape_amended 3 0 1 3 4 1 (by norm_num) (by norm_num)
    (by omega) (by omega)

/-- C3: when per-sample root-finding fails (`bisect` cannot bracket) for a
target lightness `l`, `symmetrize` does not abort: the left half substitutes
`0.5 if l > 75 else 0.0`, the right half substitutes `0.5 if l > 75 else 1.0`,
each emitting a diagnostic warning identifying the half and the failing
lightness, and the whole operation still returns a full `N`-sample result. -/
theorem symmetrize_rootfail_recovery (cspace : ℚ → ℚ → ℚ → ℚ × ℚ × ℚ)
    (cm : ℚ → RGBA) (bisect : (ℚ → ℚ) → ℚ → ℚ → Option ℚ)
    (minimize : (ℚ → ℚ) → ℚ → ℚ) (N : ℕ) (lmin? lmid? lmax? : Option ℚ)
    (vmin : ℚ) (vmid? : Option ℚ) (vmax : ℚ) (l : ℚ)
    (hdiv : (effLmax cspace cm lmax? vmax - effLmid0 cspace cm lmid? vmid?) *
        (effLmid0 cspace cm lmid? vmid? - effLmin cspace cm lmin? vmin) < 0)
    (hL : bisect (fun v => v2l cspace cm v - l) vmin
        (effVmid cspace cm minimize lmid? lmax? vmid? vmax) = none)
    (hR : bisect (fun v => v2l cspace cm v - l)
        (effVmid cspace cm minimize lmid? lmax? vmid? vmax) vmax = none) :
    l2vL bisect (v2l cspace cm) vmin
        (effVmid cspace cm minimize lmid? lmax? vmid? vmax) l =
      ((if l > 75 then 1/2 else 0), some ⟨Half.left, l⟩) ∧
    l2vR bisect (v2l cspace cm)
        (effVmid cspace cm minimize lmid? lmax? vmid? vmax) vmax l =
      ((if l > 75 then 1/2 else 1), some ⟨Half.right, l⟩) ∧
    symmetrize cspace cm bisect minimize N lmin? lmid? lmax? vmin vmid? vmax =
      Except.ok
        (symCarr cspace cm bisect minimize N lmin? lmid? lmax? vmin vmid? vmax,
         symWarns cspace cm bisect minimize N lmin? lmid? lmax? vmin vmid? vmax) ∧
    (symCarr cspace cm bisect minimize N lmin? lmid? lmax? vmin vmid? vmax).length =
      N := by
  refine ⟨?_, ?_, ?_, ?_⟩
  · unfold l2vL
    rw [hL]
  · unfold l2vR
    rw [hR]
  · unfold symmetrize
    rw [if_neg (not_le.mpr hdiv)]
  · unfold symCarr symSamples
    simp only [List.length_map, List.length_append, List.length_range]
    omega

/-- C3, witnessed with an always-failing `bisect` on a ^-shaped map with
caller-supplied `lmid = 5` and `vmid = 1/2` over the curve `v2l(v) = v`. -/
theorem symmetrize_rootfail_recovery_witness :
    l2vL (fun _ _ _ => none) (v2l (fun r _ _ => (r, 0, 0)) (fun v => ⟨v, 0, 0, 1⟩)) 0
        (effVmid (fun r _ _ => (r, 0, 0)) (fun v => ⟨v, 0, 0, 1⟩) (fun _ x => x)
          (some 5) none (some (1/2)) 1) 1 =
      ((if (1 : ℚ) > 75 then 1/2 else 0), some ⟨Half.left, 1⟩) ∧
    l2vR (fun _ _ _ => none) (v2l (fun r _ _ => (r, 0, 0)) (fun v => ⟨v, 0, 0, 1⟩))
        (effVmid (fun r _ _ => (r, 0, 0)) (fun v => ⟨v, 0, 0, 1⟩) (fun _ x => x)
          (some 5) none (some (1/2)) 1) 1 1 =
      ((if (1 : ℚ) > 75 then 1/2 else 1), some ⟨Half.right, 1⟩) ∧
    symmetrize (fun r _ _ => (r, 0, 0)) (fun v => ⟨v, 0, 0, 1⟩) (fun _ _ _ => none)
        (fun _ x => x) 4 none (some 5) none 0 (some (1/2)) 1 =
      Except.ok
        (symCarr (fun r _ _ => (r, 0, 0)) (fun v => ⟨v, 0, 0, 1⟩) (fun _ _ _ => none)
          (fun _ x => x) 4 none (some 5) none 0 (some (1/2)) 1,
         symWarns (fun r _ _ => (r, 0, 0)) (fun v => ⟨v, 0, 0, 1⟩) (fun _ _ _ => none)
          (fun _ x => x) 4 none (some 5) none 0 (some (1/2)) 1) ∧
    (symCarr (fun r _ _ => (r, 0, 0)) (fun v => ⟨v, 0, 0, 1⟩) (fun _ _ _ => none)
        (fun _ x => x) 4 none (some 5) none 0 (some (1/2)) 1).length = 4 :=
  symmetrize_rootfail_recovery (fun r _ _ => (r, 0, 0)) (fun v => ⟨v, 0, 0, 1⟩)
    (fun _ _ _ => none) (fun _ x => x) 4 none (some 5) none 0 (some (1/2)) 1 1
    (by with_unfolding_all decide) rfl rfl

/-- C4: `linearize` builds its target lightness sequence as exactly `N`
evenly spaced values between `lmin` and `lmax` inclusive, where `lmin`
defaults to `lightness(cm(vmin))` and `lmax` to `lightness(cm(vmax))` when
not supplied: entry `i` is `lmin + (lmax - lmin)/(N-1) * i`, entry `0` is
`lmin` and entry `N-1` is `lmax`. -/
theorem linearize_targets (cspace : ℚ → ℚ → ℚ → ℚ × ℚ × ℚ) (cm : ℚ → RGBA)
    (N i : ℕ) (lmin? lmax? : Option ℚ) (vmin vmax : ℚ)
    (hN : 2 ≤ N) (hi : i < N) :
    (linearizeL cspace cm N lmin? lmax? vmin vmax).length = N ∧
    (linearizeL cspace cm N lmin? lmax? vmin vmax).getD i 0 =
      lmin?.getD (v2l cspace cm vmin) +
        (lmax?.getD (v2l cspace cm vmax) - lmin?.getD (v2l cspace cm vmin)) /
          ((N : ℚ) - 1) * i ∧
    (linearizeL cspace cm N lmin? lmax? vmin vmax).getD 0 0 =
      lmin?.getD (v2l cspace cm vmin) ∧
    (linearizeL cspace cm N lmin? lmax? vmin vmax).getD (N - 1) 0 =
      lmax?.getD (v2l cspace cm vmax) := by
  have hget : ∀ j, j < N → (linearizeL cspace cm N lmin? lmax? vmin vmax).getD j 0 =
      linspace (lmin?.getD (v2l cspace cm vmin)) (lmax?.getD (v2l cspace cm vmax)) N j := by
    intro j hj
    unfold linearizeL
    exact rangeMap_getD _ N j hj 0
  have hd : ((N : ℚ) - 1) ≠ 0 := by
    have : (2 : ℚ) ≤ (N : ℚ) := by exact_mod_cast hN
    intro h; nlinarith
  refine ⟨by unfold linearizeL; simp, ?_, ?_, ?_⟩
  · rw [hget i hi]
    rfl
  · rw [hget 0 (by omega)]
    unfold linspace
    simp
  · rw [hget (N - 1) (by omega)]
    unfold linspace
    rw [Nat.cast_sub (by omega)]
    push_cast
    field_simp

/-- C4, witnessed for the identity-lightness map with `N = 3`, `i = 1`,
defaulted endpoints over `[0, 1]`. -/
theorem linearize_targets_witness :
    (linearizeL (fun r _ _ => (r, 0, 0)) (fun v => ⟨v, 0, 0, 1⟩) 3 none none 0 1).length = 3 ∧
    (linearizeL (fun r _ _ => (r, 0, 0)) (fun v => ⟨v, 0, 0, 1⟩) 3 none none 0 1).getD 1 0 =
      (none : Option ℚ).getD (v2l (fun r _ _ => (r, 0, 0)) (fun v => ⟨v, 0, 0, 1⟩) 0) +
        ((none : Option ℚ).getD (v2l (fun r _ _ => (r, 0, 0)) (fun v => ⟨v, 0, 0, 1⟩) 1) -
            (none : Option ℚ).getD (v2l (fun r _ _ => (r, 0, 0)) (fun v => ⟨v, 0, 0, 1⟩) 0)) /
          ((3 : ℚ) - 1) * 1 ∧
    (linearizeL (fun r _ _ => (r, 0, 0)) (fun v => ⟨v, 0, 0, 1⟩) 3 none none 0 1).getD 0 0 =
      (none : Option ℚ).getD (v2l (fun r _ _ => (r, 0, 0)) (fun v => ⟨v, 0, 0, 1⟩) 0) ∧
    (linearizeL (fun r _ _ => (r, 0, 0)) (fun v => ⟨v, 0, 0, 1⟩) 3 none none 0 1).getD (3 - 1) 0 =
      (none : Option ℚ).getD (v2l (fun r _ _ => (r, 0, 0)) (fun v => ⟨v, 0, 0, 1⟩) 1) :=
  linearize_targets (fun r _ _ => (r, 0, 0)) (fun v => ⟨v, 0, 0, 1⟩) 3 1 none none 0 1
    (by omega) (by omega)

/-- All three channels of an RGB triple lie in `[0, 1]`. -/
def inRange01 (c : RGB) : Prop :=
  0 ≤ c.r ∧ c.r ≤ 1 ∧ 0 ≤ c.g ∧ c.g ≤ 1 ∧ 0 ≤ c.b ∧ c.b ≤ 1

theorem clip01_nonneg (x : ℚ) : 0 ≤ clip01 x :=
  le_min (le_max_right x 0) zero_le_one

theorem clip01_le_one (x : ℚ) : clip01 x ≤ 1 :=
  min_le_right _ _

/-- C5: for every saturation profile returning `s ≥ 1` at the sample
fraction `f = i/(N-1)` (in particular `s = 1` exactly), `convert` raises a
DomainError — the `math.sqrt` domain error for `s > 1`, the division by the
zero chroma denominator for `s = 1` — rather than returning any output. -/
theorem convert_saturation_domain (cspaceInv : ℚ × ℚ × ℚ → ℚ × ℚ × ℚ)
    (sq cosf sinf : ℚ → ℚ) (i N : ℕ) (darkest lightest : ℚ)
    (sat : ℚ → ℚ) (hue : Option (ℚ → ℚ))
    (hN : 2 ≤ N) (hsq0 : sq 0 = 0)
    (hs : 1 ≤ sat ((i : ℚ) / ((N : ℚ) - 1))) :
    (convert cspaceInv sq cosf sinf i N darkest lightest (some sat) hue =
        Except.error DomainError.valueError ∨
     convert cspaceInv sq cosf sinf i N darkest lightest (some sat) hue =
        Except.error DomainError.zeroDivision) ∧
    (sat ((i : ℚ) / ((N : ℚ) - 1)) = 1 →
      convert cspaceInv sq cosf sinf i N darkest lightest (some sat) hue =
        Except.error DomainError.zeroDivision) ∧
    (1 < sat ((i : ℚ) / ((N : ℚ) - 1)) →
      convert cspaceInv sq cosf sinf i N darkest lightest (some sat) hue =
        Except.error DomainError.valueError) := by
  have hd : ((N : ℚ) - 1) ≠ 0 := by
    have : (2 : ℚ) ≤ (N : ℚ) := by exact_mod_cast hN
    intro h; nlinarith
  have hzero : sat ((i : ℚ) / ((N : ℚ) - 1)) = 1 →
      convert cspaceInv sq cosf sinf i N darkest lightest (some sat) hue =
        Except.error DomainError.zeroDivision := by
    intro h1
    have h0 : 1 - sat ((i : ℚ) / ((N : ℚ) - 1)) * sat ((i : ℚ) / ((N : ℚ) - 1)) = 0 := by
      rw [h1]; ring
    unfold convert
    simp only [pyDiv, if_neg hd, mathSqrt, h0, if_neg (lt_irrefl (0 : ℚ)), hsq0,
      bind, Except.bind]
    simp
  have hgt : 1 < sat ((i : ℚ) / ((N : ℚ) - 1)) →
      convert cspaceInv sq cosf sinf i N darkest lightest (some sat) hue =
        Except.error DomainError.valueError := by
    intro h1
    have hneg : 1 - sat ((i : ℚ) / ((N : ℚ) - 1)) * sat ((i : ℚ) / ((N : ℚ) - 1)) < 0 := by
      nlinarith
    unfold convert
    simp only [pyDiv, if_neg hd, mathSqrt, if_pos hneg, bind, Except.bind]
  refine ⟨?_, hzero, hgt⟩
  rcases lt_or_eq_of_le hs with h1 | h1
  · exact Or.inl (hgt h1)
  · exact Or.inr (hzero h1.symm)

/-- C5, witnessed at a constant saturation profile returning exactly 1. -/
theorem convert_saturation_domain_witness :
    (convert (fun p => p) (fun _ => 0) (fun _ => 1) (fun _ => 1) 0 2 0 100
        (some (fun _ => 1)) none = Except.error DomainError.valueError ∨
     convert (fun p => p) (fun _ => 0) (fun _ => 1) (fun _ => 1) 0 2 0 100
        (some (fun _ => 1)) none = Except.error DomainError.zeroDivision) ∧
    ((fun _ => (1 : ℚ)) (((0 : ℕ) : ℚ) / (((2 : ℕ) : ℚ) - 1)) = 1 →
      convert (fun p => p) (fun _ => 0) (fun _ => 1) (fun _ => 1) 0 2 0 100
        (some (fun _ => 1)) none = Except.error DomainError.zeroDivision) ∧
    (1 < (fun _ => (1 : ℚ)) (((0 : ℕ) : ℚ) / (((2 : ℕ) : ℚ) - 1)) →
      convert (fun p => p) (fun _ => 0) (fun _ => 1) (fun _ => 1) 0 2 0 100
        (some (fun _ => 1)) none = Except.error DomainError.valueError) :=
  convert_saturation_domain (fun p => p) (fun _ => 0) (fun _ => 1) (fun _ => 1)
    0 2 0 100 (fun _ => 1) none (by omega) rfl (by norm_num)

/-- `convert` succeeds and yields an in-range triple whenever the effective
saturation at the sample lies in `(0, 1)` (and the square-root oracle is
nonzero on positive inputs). -/
theorem convert_ok (cspaceInv : ℚ × ℚ × ℚ → ℚ × ℚ × ℚ) (sq cosf sinf : ℚ → ℚ)
    (i N : ℕ) (darkest lightest : ℚ) (sat : ℚ → ℚ) (hue : Option (ℚ → ℚ))
    (hN : 2 ≤ N)
    (hs0 : 0 < sat ((i : ℚ) / ((N : ℚ) - 1)))
    (hs1 : sat ((i : ℚ) / ((N : ℚ) - 1)) < 1)
    (hsq : ∀ x : ℚ, 0 < x → sq x ≠ 0) :
    ∃ c : RGB,
      convert cspaceInv sq cosf sinf i N darkest lightest (some sat) hue =
        Except.ok c ∧ inRange01 c := by
  have hd : ((N : ℚ) - 1) ≠ 0 := by
    have : (2 : ℚ) ≤ (N : ℚ) := by exact_mod_cast hN
    intro h; nlinarith
  have hrad : 0 < 1 - sat ((i : ℚ) / ((N : ℚ) - 1)) * sat ((i : ℚ) / ((N : ℚ) - 1)) := by
    nlinarith
  have hroot : sq (1 - sat ((i : ℚ) / ((N : ℚ) - 1)) * sat ((i : ℚ) / ((N : ℚ) - 1))) ≠ 0 :=
    hsq _ hrad
  unfold convert
  simp only [pyDiv, if_neg hd, mathSqrt, if_neg (not_lt.mpr (le_of_lt hrad)),
    if_neg hroot, bind, Except.bind]
  exact ⟨_, rfl,
    clip01_nonneg _, clip01_le_one _, clip01_nonneg _, clip01_le_one _,
    clip01_nonneg _, clip01_le_one _⟩

/-- `mapM` over `Except` succeeds elementwise: if every element maps to a
success satisfying `P`, the whole list maps to a success of the same length
whose members satisfy `P`. -/
theorem mapM_ok_of {α β : Type _} (f : α → Except DomainError β) (P : β → Prop) :
    ∀ l : List α, (∀ x ∈ l, ∃ b, f x = Except.ok b ∧ P b) →
      ∃ out : List β, l.mapM f = Except.ok out ∧ out.length = l.length ∧
        ∀ b ∈ out, P b := by
  intro l
  induction l with
  | nil => exact fun _ => ⟨[], rfl, rfl, by simp⟩
  | cons x xs ih =>
    intro h
    obtain ⟨b, hb, hPb⟩ := h x (by simp)
    obtain ⟨out, hout, hlen, hP⟩ := ih (fun y hy => h y (by simp [hy]))
    refine ⟨b :: out, ?_, by simp [hlen], ?_⟩
    · rw [List.mapM_cons, hb, hout]
      rfl
    · intro c hc
      rcases List.mem_cons.mp hc with h' | h'
      · exact h' ▸ hPb
      · exact hP c h'

/-- C6: for valid inputs (`N ≥ 2`, `darkest, lightest ∈ [0, 100]`,
saturation profile constrained to `(0, 1)`), `colormap` succeeds, its output
has exactly `N` samples, and every sample (here: the one at any index
`k < N`) is an RGB triple with all three channels in `[0, 1]`. -/
theorem colormap_valid (cspaceInv : ℚ × ℚ × ℚ → ℚ × ℚ × ℚ)
    (sq cosf sinf : ℚ → ℚ) (N k : ℕ) (darkest lightest : ℚ)
    (sat : ℚ → ℚ) (hue : Option (ℚ → ℚ))
    (hN : 2 ≤ N) (hk : k < N)
    (hdark0 : 0 ≤ darkest) (hdark1 : darkest ≤ 100)
    (hlight0 : 0 ≤ lightest) (hlight1 : lightest ≤ 100)
    (hsat0 : ∀ x : ℚ, 0 < sat x) (hsat1 : ∀ x : ℚ, sat x < 1)
    (hsq : ∀ x : ℚ, 0 < x → sq x ≠ 0) :
    (colormap cspaceInv sq cosf sinf N darkest lightest (some sat) hue).toOption.isSome =
      true ∧
    ((colormap cspaceInv sq cosf sinf N darkest lightest (some sat) hue).toOption.getD
        []).length = N ∧
    inRange01 (((colormap cspaceInv sq cosf sinf N darkest lightest
        (some sat) hue).toOption.getD []).getD k ⟨0, 0, 0⟩) := by
  obtain ⟨out, hout, hlen, hP⟩ :=
    mapM_ok_of (fun i => convert cspaceInv sq cosf sinf i N darkest lightest (some sat) hue)
      inRange01 (List.range N)
      (fun i _ => convert_ok cspaceInv sq cosf sinf i N darkest lightest sat hue hN
        (hsat0 _) (hsat1 _) hsq)
  have hc : colormap cspaceInv sq cosf sinf N darkest lightest (some sat) hue =
      Except.ok out := by
    unfold colormap
    exact hout
  rw [hc]
  have hlen' : out.length = N := by
    rw [hlen, List.length_range]
  refine ⟨rfl, hlen', ?_⟩
  have hkl : k < out.length := by omega
  have hmem : out.getD k ⟨0, 0, 0⟩ ∈ out := by
    rw [List.getD_eq_getElem?_getD, List.getElem?_eq_getElem hkl]
    exact List.getElem_mem hkl
  exact hP _ hmem

/-- C6, witnessed at `N = 2`, `k = 1`, constant saturation `1/2`. -/
theorem colormap_valid_witness :
    (colormap (fun p => p) (fun _ => 1) (fun _ => 1) (fun _ => 1) 2 0 100
        (some (fun _ => 1/2)) none).toOption.isSome = true ∧
    ((colormap (fun p => p) (fun _ => 1) (fun _ => 1) (fun _ => 1) 2 0 100
        (some (fun _ => 1/2)) none).toOption.getD []).length = 2 ∧
    inRange01 (((colormap (fun p => p) (fun _ => 1) (fun _ => 1) (fun _ => 1) 2 0 100
        (some (fun _ => 1/2)) none).toOption.getD []).getD 1 ⟨0, 0, 0⟩) :=
  colormap_valid (fun p => p) (fun _ => 1) (fun _ => 1) (fun _ => 1) 2 1 0 100
    (fun _ => 1/2) none (by omega) (by omega) (by norm_num) (by norm_num)
    (by norm_num) (by norm_num) (fun _ => by norm_num) (fun _ => by norm_num)
    (fun _ _ => by norm_num)

/-- C7: for even `N`, `symmetrize` solves the first `N/2` samples with the
left-half solver (bracket `[vmin, vmid]`) on targets `L[0..N/2-1]` and the
remaining `N/2` samples with the right-half solver (bracket `[vmid, vmax]`)
on targets `L[N/2..N-1]`, and the result is the left-half RGBA samples
concatenated with the right-half samples, `N` in total. -/
theorem symmetrize_halves (cspace : ℚ → ℚ → ℚ → ℚ × ℚ × ℚ) (cm : ℚ → RGBA)
    (bisect : (ℚ → ℚ) → ℚ → ℚ → Option ℚ) (minimize : (ℚ → ℚ) → ℚ → ℚ)
    (N : ℕ) (lmin? lmid? lmax? : Option ℚ) (vmin : ℚ) (vmid? : Option ℚ) (vmax : ℚ)
    (hdiv : (effLmax cspace cm lmax? vmax - effLmid0 cspace cm lmid? vmid?) *
        (effLmid0 cspace cm lmid? vmid? - effLmin cspace cm lmin? vmin) < 0)
    (heven : N % 2 = 0) :
    symmetrize cspace cm bisect minimize N lmin? lmid? lmax? vmin vmid? vmax =
      Except.ok
        (symCarr cspace cm bisect minimize N lmin? lmid? lmax? vmin vmid? vmax,
         symWarns cspace cm bisect minimize N lmin? lmid? lmax? vmin vmid? vmax) ∧
    symCarr cspace cm bisect minimize N lmin? lmid? lmax? vmin vmid? vmax =
      ((List.range (N / 2)).map fun i =>
        cm (l2vL bisect (v2l cspace cm) vmin
          (effVmid cspace cm minimize lmid? lmax? vmid? vmax)
          (symTargetL (effLmin cspace cm lmin? vmin)
            (effLmid cspace cm minimize lmid? lmax? vmid? vmax)
            (effLmax cspace cm lmax? vmax) N i)).1) ++
      ((List.range (N / 2)).map fun j =>
        cm (l2vR bisect (v2l cspace cm)
          (effVmid cspace cm minimize lmid? lmax? vmid? vmax) vmax
          (symTargetL (effLmin cspace cm lmin? vmin)
            (effLmid cspace cm minimize lmid? lmax? vmid? vmax)
            (effLmax cspace cm lmax? vmax) N (N / 2 + j))).1) ∧
    (symCarr cspace cm bisect minimize N lmin? lmid? lmax? vmin vmid? vmax).length =
      N := by
  refine ⟨?_, ?_, ?_⟩
  · unfold symmetrize
    rw [if_neg (not_le.mpr hdiv)]
  · unfold symCarr symSamples
    rw [show N - N / 2 = N / 2 by omega]
    rw [List.map_append, List.map_map, List.map_map]
    rfl
  · unfold symCarr symSamples
    simp only [List.length_map, List.length_append, List.length_range]
    omega

/-- C7, witnessed at `N = 4` on a ^-shaped map with caller-supplied
`lmid = 5`, `vmid = 1/2`, and an always-failing `bisect`. -/
theorem symmetrize_halves_witness :
    symmetrize (fun r _ _ => (r, 0, 0)) (fun v => ⟨v, 0, 0, 1⟩) (fun _ _ _ => none)
        (fun _ x => x) 4 none (some 5) none 0 (some (1/2)) 1 =
      Except.ok
        (symCarr (fun r _ _ => (r, 0, 0)) (fun v => ⟨v, 0, 0, 1⟩) (fun _ _ _ => none)
          (fun _ x => x) 4 none (some 5) none 0 (some (1/2)) 1,
         symWarns (fun r _ _ => (r, 0, 0)) (fun v => ⟨v, 0, 0, 1⟩) (fun _ _ _ => none)
          (fun _ x => x) 4 none (some 5) none 0 (some (1/2)) 1) ∧
    symCarr (fun r _ _ => (r, 0, 0)) (fun v => ⟨v, 0, 0, 1⟩) (fun _ _ _ => none)
        (fun _ x => x) 4 none (some 5) none 0 (some (1/2)) 1 =
      ((List.range (4 / 2)).map fun i =>
        (fun v => (⟨v, 0, 0, 1⟩ : RGBA)) (l2vL (fun _ _ _ => none)
          (v2l (fun r _ _ => (r, 0, 0)) (fun v => ⟨v, 0, 0, 1⟩)) 0
          (effVmid (fun r _ _ => (r, 0, 0)) (fun v => ⟨v, 0, 0, 1⟩) (fun _ x => x)
            (some 5) none (some (1/2)) 1)
          (symTargetL (effLmin (fun r _ _ => (r, 0, 0)) (fun v => ⟨v, 0, 0, 1⟩) none 0)
            (effLmid (fun r _ _ => (r, 0, 0)) (fun v => ⟨v, 0, 0, 1⟩) (fun _ x => x)
              (some 5) none (some (1/2)) 1)
            (effLmax (fun r _ _ => (r, 0, 0)) (fun v => ⟨v, 0, 0, 1⟩) none 1) 4 i)).1) ++
      ((List.range (4 / 2)).map fun j =>
        (fun v => (⟨v, 0, 0, 1⟩ : RGBA)) (l2vR (fun _ _ _ => none)
          (v2l (fun r _ _ => (r, 0, 0)) (fun v => ⟨v, 0, 0, 1⟩))
          (effVmid (fun r _ _ => (r, 0, 0)) (fun v => ⟨v, 0, 0, 1⟩) (fun _ x => x)
            (some 5) none (some (1/2)) 1) 1
          (symTargetL (effLmin (fun r _ _ => (r, 0, 0)) (fun v => ⟨v, 0, 0, 1⟩) none 0)
            (effLmid (fun r _ _ => (r, 0, 0)) (fun v => ⟨v, 0, 0, 1⟩) (fun _ x => x)
              (some 5) none (some (1/2)) 1)
            (effLmax (fun r _ _ => (r, 0, 0)) (fun v => ⟨v, 0, 0, 1⟩) none 1) 4
            (4 / 2 + j))).1) ∧
    (symCarr (fun r _ _ => (r, 0, 0)) (fun v => ⟨v, 0, 0, 1⟩) (fun _ _ _ => none)
        (fun _ x => x) 4 none (some 5) none 0 (some (1/2)) 1).length = 4 :=
  symmetrize_halves (fun r _ _ => (r, 0, 0)) (fun v => ⟨v, 0, 0, 1⟩)
    (fun _ _ _ => none) (fun _ x => x) 4 none (some 5) none 0 (some (1/2)) 1
    (by with_unfolding_all decide) (by omega)

/-- The lightness of one RGBA sample, as `lightness(*sample)` computes it. -/
def lightnessRGBA (cspace : ℚ → ℚ → ℚ → ℚ × ℚ × ℚ) (c : RGBA) : ℚ :=
  lightness cspace c.r c.g c.b c.a

/-- When every per-sample bisection succeeds and `bisect` returns exact
roots, the lightness of `symmetrize`'s sample at index `k` equals the
target-curve value at `k`. -/
theorem symCarr_lightness (cspace : ℚ → ℚ → ℚ → ℚ × ℚ × ℚ) (cm : ℚ → RGBA)
    (bisect : (ℚ → ℚ) → ℚ → ℚ → Option ℚ) (minimize : (ℚ → ℚ) → ℚ → ℚ)
    (N : ℕ) (lmin? lmid? lmax? : Option ℚ) (vmin : ℚ) (vmid? : Option ℚ) (vmax : ℚ)
    (k : ℕ) (hk : k < N)
    (hexact : ∀ g : ℚ → ℚ, ∀ a b v : ℚ, bisect g a b = some v → g v = 0)
    (hsuccL : ∀ i : ℕ, i < N / 2 →
      bisect (fun v => v2l cspace cm v -
          symTargetL (effLmin cspace cm lmin? vmin)
            (effLmid cspace cm minimize lmid? lmax? vmid? vmax)
            (effLmax cspace cm lmax? vmax) N i)
        vmin (effVmid cspace cm minimize lmid? lmax? vmid? vmax) ≠ none)
    (hsuccR : ∀ i : ℕ, N / 2 ≤ i → i < N →
      bisect (fun v => v2l cspace cm v -
          symTargetL (effLmin cspace cm lmin? vmin)
            (effLmid cspace cm minimize lmid? lmax? vmid? vmax)
            (effLmax cspace cm lmax? vmax) N i)
        (effVmid cspace cm minimize lmid? lmax? vmid? vmax) vmax ≠ none) :
    lightnessRGBA cspace
        ((symCarr cspace cm bisect minimize N lmin? lmid? lmax? vmin vmid? vmax).getD
          k ⟨0, 0, 0, 0⟩) =
      symTargetL (effLmin cspace cm lmin? vmin)
        (effLmid cspace cm minimize lmid? lmax? vmid? vmax)
        (effLmax cspace cm lmax? vmax) N k := by
  by_cases hkL : k < N / 2
  · obtain ⟨v, hv⟩ := Option.ne_none_iff_exists'.mp (hsuccL k hkL)
    have hentry :
        (symCarr cspace cm bisect minimize N lmin? lmid? lmax? vmin vmid? vmax).getD
          k ⟨0, 0, 0, 0⟩ = cm v := by
      unfold symCarr symSamples
      rw [List.getD_eq_getElem?_getD, List.getElem?_map,
        List.getElem?_append_left (by simp only [List.length_map, List.length_range]; omega),
        List.getElem?_map, List.getElem?_range hkL]
      simp only [Option.map_some', Option.getD_some]
      unfold l2vL
      rw [hv]
    rw [hentry]
    have h0 := hexact _ _ _ _ hv
    exact eq_of_sub_eq_zero h0
  · have hkR : N / 2 ≤ k := le_of_not_lt hkL
    obtain ⟨v, hv⟩ := Option.ne_none_iff_exists'.mp (hsuccR k hkR hk)
    have hentry :
        (symCarr cspace cm bisect minimize N lmin? lmid? lmax? vmin vmid? vmax).getD
          k ⟨0, 0, 0, 0⟩ = cm v := by
      unfold symCarr symSamples
      rw [List.getD_eq_getElem?_getD, List.getElem?_map,
        List.getElem?_append_right (by simp only [List.length_map, List.length_range]; omega),
        List.getElem?_map]
      simp only [List.length_map, List.length_range]
      rw [List.getElem?_range (by omega)]
      simp only [Option.map_some', Option.getD_some]
      rw [show N / 2 + (k - N / 2) = k by omega]
      unfold l2vR
      rw [hv]
    rw [hentry]
    have h0 := hexact _ _ _ _ hv
    exact eq_of_sub_eq_zero h0

/-- C8: when `lmin` and `lmax` are symmetric around `lmid` (a perfect V- or
^-shaped curve), and every per-sample bisection succeeds with exact roots
(the idealized zero-tolerance root finder), the lightness of `symmetrize`'s
output at index `k` equals the lightness of the output at index `N-1-k`. -/
theorem symmetrize_output_symmetric (cspace : ℚ → ℚ → ℚ → ℚ × ℚ × ℚ)
    (cm : ℚ → RGBA) (bisect : (ℚ → ℚ) → ℚ → ℚ → Option ℚ)
    (minimize : (ℚ → ℚ) → ℚ → ℚ) (N k : ℕ)
    (lmin? lmid? lmax? : Option ℚ) (vmin : ℚ) (vmid? : Option ℚ) (vmax : ℚ)
    (hk : k < N)
    (hdiv : (effLmax cspace cm lmax? vmax - effLmid0 cspace cm lmid? vmid?) *
        (effLmid0 cspace cm lmid? vmid? - effLmin cspace cm lmin? vmin) < 0)
    (hsym : |effLmax cspace cm lmax? vmax -
        effLmid cspace cm minimize lmid? lmax? vmid? vmax| =
      |effLmid cspace cm minimize lmid? lmax? vmid? vmax -
        effLmin cspace cm lmin? vmin|)
    (hexact : ∀ g : ℚ → ℚ, ∀ a b v : ℚ, bisect g a b = some v → g v = 0)
    (hsuccL : ∀ i : ℕ, i < N / 2 →
      bisect (fun v => v2l cspace cm v -
          symTargetL (effLmin cspace cm lmin? vmin)
            (effLmid cspace cm minimize lmid? lmax? vmid? vmax)
            (effLmax cspace cm lmax? vmax) N i)
        vmin (effVmid cspace cm minimize lmid? lmax? vmid? vmax) ≠ none)
    (hsuccR : ∀ i : ℕ, N / 2 ≤ i → i < N →
      bisect (fun v => v2l cspace cm v -
          symTargetL (effLmin cspace cm lmin? vmin)
            (effLmid cspace cm minimize lmid? lmax? vmid? vmax)
            (effLmax cspace cm lmax? vmax) N i)
        (effVmid cspace cm minimize lmid? lmax? vmid? vmax) vmax ≠ none) :
    symmetrize cspace cm bisect minimize N lmin? lmid? lmax? vmin vmid? vmax =
      Except.ok
        (symCarr cspace cm bisect minimize N lmin? lmid? lmax? vmin vmid? vmax,
         symWarns cspace cm bisect minimize N lmin? lmid? lmax? vmin vmid? vmax) ∧
    lightnessRGBA cspace
        ((symCarr cspace cm bisect minimize N lmin? lmid? lmax? vmin vmid? vmax).getD
          k ⟨0, 0, 0, 0⟩) =
      lightnessRGBA cspace
        ((symCarr cspace cm bisect minimize N lmin? lmid? lmax? vmin vmid? vmax).getD
          (N - 1 - k) ⟨0, 0, 0, 0⟩) := by
  refine ⟨by unfold symmetrize; rw [if_neg (not_le.mpr hdiv)], ?_⟩
  rw [symCarr_lightness cspace cm bisect minimize N lmin? lmid? lmax? vmin vmid? vmax
      k hk hexact hsuccL hsuccR,
    symCarr_lightness cspace cm bisect minimize N lmin? lmid? lmax? vmin vmid? vmax
      (N - 1 - k) (by omega) hexact hsuccL hsuccR,
    symTargetL_symm _ _ _ N k hk]

/-- C8, witnessed on the exact V-shaped curve `v2l(v) = 50·|2v-1|` with
`N = 2`, `k = 0`, supplied `vmid = 1/2`, and a root finder returning an
endpoint of the bracket when it is an exact root. -/
theorem symmetrize_output_symmetric_witness :
    symmetrize (fun r _ _ => (50 * |2 * r - 1|, 0, 0)) (fun v => ⟨v, 0, 0, 1⟩)
        (fun g a b => if g a = 0 then some a else if g b = 0 then some b else none)
        (fun _ x => x) 2 none none none 0 (some (1/2)) 1 =
      Except.ok
        (symCarr (fun r _ _ => (50 * |2 * r - 1|, 0, 0)) (fun v => ⟨v, 0, 0, 1⟩)
          (fun g a b => if g a = 0 then some a else if g b = 0 then some b else none)
          (fun _ x => x) 2 none none none 0 (some (1/2)) 1,
         symWarns (fun r _ _ => (50 * |2 * r - 1|, 0, 0)) (fun v => ⟨v, 0, 0, 1⟩)
          (fun g a b => if g a = 0 then some a else if g b = 0 then some b else none)
          (fun _ x => x) 2 none none none 0 (some (1/2)) 1) ∧
    lightnessRGBA (fun r _ _ => (50 * |2 * r - 1|, 0, 0))
        ((symCarr (fun r _ _ => (50 * |2 * r - 1|, 0, 0)) (fun v => ⟨v, 0, 0, 1⟩)
          (fun g a b => if g a = 0 then some a else if g b = 0 then some b else none)
          (fun _ x => x) 2 none none none 0 (some (1/2)) 1).getD 0 ⟨0, 0, 0, 0⟩) =
      lightnessRGBA (fun r _ _ => (50 * |2 * r - 1|, 0, 0))
        ((symCarr (fun r _ _ => (50 * |2 * r - 1|, 0, 0)) (fun v => ⟨v, 0, 0, 1⟩)
          (fun g a b => if g a = 0 then some a else if g b = 0 then some b else none)
          (fun _ x => x) 2 none none none 0 (some (1/2)) 1).getD (2 - 1 - 0)
          ⟨0, 0, 0, 0⟩) := by
  exact symmetrize_output_symmetric (fun r _ _ => (50 * |2 * r - 1|, 0, 0))
    (fun v => ⟨v, 0, 0, 1⟩)
    (fun g a b => if g a = 0 then some a else if g b = 0 then some b else none)
    (fun _ x => x) 2 0 none none none 0 (some (1/2)) 1
    (by omega)
    (by with_unfolding_all decide)
    (by with_unfolding_all decide)
    (by
      intro g a b v h
      dsimp only at h
      split_ifs at h with h1 h2
      · cases h; exact h1
      · cases h; exact h2)
    (by with_unfolding_all decide)
    (by with_unfolding_all decide)

/-- `effLmid0` returns a caller-supplied `lmid` unchanged. -/
theorem effLmid0_some (cspace : ℚ → ℚ → ℚ → ℚ × ℚ × ℚ) (cm : ℚ → RGBA)
    (l : ℚ) (vmid? : Option ℚ) :
    effLmid0 cspace cm (some l) vmid? = l := rfl

/-- C10: when `vmid` is not supplied, a caller-supplied `lmid` only feeds
the divergence check and the v-shape/^-shape choice of objective for the
midpoint optimization; afterwards `lmid` is unconditionally overwritten with
`lightness(cm(vmid))` at the found extremum, so two supplied `lmid` values
passing the divergence check and inducing the same shape decision give
identical results. -/
theorem symmetrize_lmid_overwritten (cspace : ℚ → ℚ → ℚ → ℚ × ℚ × ℚ)
    (cm : ℚ → RGBA) (bisect : (ℚ → ℚ) → ℚ → ℚ → Option ℚ)
    (minimize : (ℚ → ℚ) → ℚ → ℚ) (N : ℕ) (lmin? lmax? : Option ℚ)
    (l1 l2 : ℚ) (vmin vmax : ℚ)
    (hdiv1 : (effLmax cspace cm lmax? vmax - l1) *
        (l1 - effLmin cspace cm lmin? vmin) < 0)
    (hdiv2 : (effLmax cspace cm lmax? vmax - l2) *
        (l2 - effLmin cspace cm lmin? vmin) < 0)
    (hshape : effLmax cspace cm lmax? vmax > l1 ↔ effLmax cspace cm lmax? vmax > l2) :
    effLmid cspace cm minimize (some l1) lmax? none vmax =
      v2l cspace cm (effVmid cspace cm minimize (some l1) lmax? none vmax) ∧
    effVmid cspace cm minimize (some l1) lmax? none vmax =
      effVmid cspace cm minimize (some l2) lmax? none vmax ∧
    symmetrize cspace cm bisect minimize N lmin? (some l1) lmax? vmin none vmax =
      symmetrize cspace cm bisect minimize N lmin? (some l2) lmax? vmin none vmax := by
  have hv : effVmid cspace cm minimize (some l1) lmax? none vmax =
      effVmid cspace cm minimize (some l2) lmax? none vmax := by
    unfold effVmid
    rw [effLmid0_some, effLmid0_some,
      if_congr hshape rfl rfl]
  have hl : effLmid cspace cm minimize (some l1) lmax? none vmax =
      effLmid cspace cm minimize (some l2) lmax? none vmax := by
    unfold effLmid
    rw [hv]
  have hsamp : ∀ b : (ℚ → ℚ) → ℚ → ℚ → Option ℚ,
      symSamples cspace cm b minimize N lmin? (some l1) lmax? vmin none vmax =
        symSamples cspace cm b minimize N lmin? (some l2) lmax? vmin none vmax := by
    intro b
    unfold symSamples
    simp only [hv, hl]
  refine ⟨rfl, hv, ?_⟩
  unfold symmetrize
  rw [effLmid0_some, effLmid0_some,
    if_neg (not_le.mpr hdiv1), if_neg (not_le.mpr hdiv2)]
  unfold symCarr symWarns
  rw [hsamp]

/-- C10, witnessed on the curve `v2l(v) = 50·|2v-1|` with supplied
`lmid = 60` versus `lmid = 70` (both pass the divergence check and make the
same shape decision). -/
theorem symmetrize_lmid_overwritten_witness :
    effLmid (fun r _ _ => (50 * |2 * r - 1|, 0, 0)) (fun v => ⟨v, 0, 0, 1⟩)
        (fun _ x => x) (some 60) none none 1 =
      v2l (fun r _ _ => (50 * |2 * r - 1|, 0, 0)) (fun v => ⟨v, 0, 0, 1⟩)
        (effVmid (fun r _ _ => (50 * |2 * r - 1|, 0, 0)) (fun v => ⟨v, 0, 0, 1⟩)
          (fun _ x => x) (some 60) none none 1) ∧
    effVmid (fun r _ _ => (50 * |2 * r - 1|, 0, 0)) (fun v => ⟨v, 0, 0, 1⟩)
        (fun _ x => x) (some 60) none none 1 =
      effVmid (fun r _ _ => (50 * |2 * r - 1|, 0, 0)) (fun v => ⟨v, 0, 0, 1⟩)
        (fun _ x => x) (some 70) none none 1 ∧
    symmetrize (fun r _ _ => (50 * |2 * r - 1|, 0, 0)) (fun v => ⟨v, 0, 0, 1⟩)
        (fun _ _ _ => none) (fun _ x => x) 2 none (some 60) none 0 none 1 =
      symmetrize (fun r _ _ => (50 * |2 * r - 1|, 0, 0)) (fun v => ⟨v, 0, 0, 1⟩)
        (fun _ _ _ => none) (fun _ x => x) 2 none (some 70) none 0 none 1 :=
  symmetrize_lmid_overwritten (fun r _ _ => (50 * |2 * r - 1|, 0, 0))
    (fun v => ⟨v, 0, 0, 1⟩) (fun _ _ _ => none) (fun _ x => x) 2 none none
    60 70 0 1 (by with_unfolding_all decide) (by with_unfolding_all decide)
    (by with_unfolding_all decide)

end Ehtplot
